import Mathlib

/-!
Verification of the fitrkr-cli bulk uploader: a shallow embedding of the
Go source (CSV/JSON/YAML parsers, name-table inserts, the exercise batch
transaction, and the bubbletea menu state machine), with theorems settling
the frozen claims about it.

Strings are modelled as Lean `String` (a wrapper around `List Char`);
CSV files are modelled as the record list produced by Go's `csv.ReadAll`
(`List (List String)`), which is the input the parser functions iterate
over. Database statements are modelled by their client-visible semantics:
each statement either fails (per an externally supplied failure oracle,
standing for driver/server errors) with no effect, or succeeds and applies
its documented effect to an explicit table state.
-/

/-- The character class trimmed by Go's `strings.TrimSpace`
(`unicode.IsSpace`): ASCII whitespace plus the Unicode White_Space
code points. -/
def goIsSpace (c : Char) : Bool :=
  let n := c.toNat
  (decide (9 ≤ n ∧ n ≤ 13)) || n == 32 || n == 133 || n == 160 || n == 5760 ||
  (decide (8192 ≤ n ∧ n ≤ 8202)) || n == 8232 || n == 8233 || n == 8239 ||
  n == 8287 || n == 12288

/-- Go's `strings.Trim`-style two-sided trim: drop characters satisfying
`p` from the left, then from the right. -/
def goTrim (p : Char → Bool) (l : List Char) : List Char :=
  ((l.dropWhile p).reverse.dropWhile p).reverse

/-- Embeds `strings.TrimSpace`. -/
def TrimSpace (s : String) : String :=
  ⟨goTrim goIsSpace s.data⟩

/-- Embeds `strings.Split` for a one-character separator (the source only
ever calls `SplitAndTrim` with the one-character separator ";"). -/
def splitChar (sep : Char) : List Char → List (List Char)
  | [] => [[]]
  | c :: cs =>
    match splitChar sep cs with
    | [] => [[]]
    | h :: t => if c == sep then [] :: h :: t else (c :: h) :: t

/-- Embeds `SplitAndTrim` (part_002): split by `sep`; for each part first
trim surrounding quote characters (`strings.Trim(p, "\x22")`), then
surrounding whitespace (`strings.TrimSpace`); keep non-empty results. -/
def SplitAndTrim (s : String) (sep : Char) : List String :=
  (splitChar sep s.data).filterMap fun p =>
    let q := goTrim goIsSpace (goTrim (fun c => c == '"') p)
    if q.isEmpty then none else some (String.mk q)

/-- Loop body of `ParseCSV` (part_002): iterate records with their index;
skip empty records; skip the index-0 record when its first cell is exactly
"name" or "Name"; otherwise collect the first cell. -/
def parseCSVAux (i : Nat) : List (List String) → List String
  | [] => []
  | rec :: rest =>
    match rec with
    | [] => parseCSVAux (i + 1) rest
    | x :: _ =>
      if i = 0 ∧ (x = "name" ∨ x = "Name") then parseCSVAux (i + 1) rest
      else x :: parseCSVAux (i + 1) rest

/-- Embeds `ParseCSV` (part_002) on the record list returned by
`csv.ReadAll`: first column of each row, with an exact-match header
("name"/"Name") skipped. -/
def ParseCSV (records : List (List String)) : List String :=
  parseCSVAux 0 records

/-- The typed exercise upload row (part_002, `ExerciseUploadRow`). -/
structure ExerciseUploadRow where
  name : String
  description : String
  category : String
  equipment : List String
  types : List String
  muscles : List String
deriving DecidableEq

/-- Builds one `ExerciseUploadRow` from a CSV record with at least six
columns, exactly as the loop body of `ParseExercisesCSV` does. -/
def rowOfRec (rec : List String) : ExerciseUploadRow :=
  { name := TrimSpace (rec.getD 0 "")
    description := TrimSpace (rec.getD 1 "")
    category := TrimSpace (rec.getD 2 "")
    equipment := SplitAndTrim (rec.getD 3 "") ';'
    types := SplitAndTrim (rec.getD 4 "") ';'
    muscles := SplitAndTrim (rec.getD 5 "") ';' }

/-- Loop body of `ParseExercisesCSV`: skip the index-0 (header) record,
skip records with fewer than six columns, map the rest to upload rows. -/
def parseExRowsAux (i : Nat) : List (List String) → List ExerciseUploadRow
  | [] => []
  | rec :: rest =>
    if i = 0 then parseExRowsAux (i + 1) rest
    else if rec.length < 6 then parseExRowsAux (i + 1) rest
    else rowOfRec rec :: parseExRowsAux (i + 1) rest

/-- Embeds `ParseExercisesCSV` (part_002) on the record list returned by
`csv.ReadAll`: errors when there are no records at all, otherwise skips
the first record and keeps rows with at least six columns. -/
def ParseExercisesCSV (records : List (List String)) :
    Except String (List ExerciseUploadRow) :=
  if records.length < 1 then .error "no records found"
  else .ok (parseExRowsAux 0 records)

/-- The first record's contribution to `ParseCSV`, written from the
amended claim's words: an empty first row contributes nothing, a first
row whose first cell is exactly "name" or "Name" is skipped, any other
first row contributes its first cell. -/
def firstRowContrib (rec : List String) : List String :=
  match rec with
  | [] => []
  | x :: _ => if x = "name" ∨ x = "Name" then [] else [x]

/-- Predicate used to state the amended C4: neither end of the character
list is whitespace. -/
def noSurroundingSpace (p : List Char) : Bool :=
  (match p.head? with
   | none => true
   | some c => !goIsSpace c) &&
  (match p.getLast? with
   | none => true
   | some c => !goIsSpace c)

-- Helper lemmas about dropWhile / goTrim

lemma head?_dropWhile_false (p : α → Bool) (l : List α) (c : α)
    (h : (l.dropWhile p).head? = some c) : p c = false := by
  induction l with
  | nil => simp [List.dropWhile] at h
  | cons x xs ih =>
    cases hp : p x with
    | true =>
      rw [List.dropWhile_cons, if_pos hp] at h
      exact ih h
    | false =>
      rw [List.dropWhile_cons, if_neg (by simp [hp])] at h
      simp only [List.head?_cons, Option.some.injEq] at h
      subst h
      exact hp

lemma getLast?_dropWhile_ne_nil (p : α → Bool) (l : List α)
    (h : l.dropWhile p ≠ []) : (l.dropWhile p).getLast? = l.getLast? := by
  induction l with
  | nil => simp [List.dropWhile] at h
  | cons x xs ih =>
    cases hp : p x with
    | true =>
      rw [List.dropWhile_cons, if_pos hp] at h ⊢
      rw [ih h]
      have hxs : xs ≠ [] := by
        intro he
        rw [he] at h
        simp [List.dropWhile] at h
      rcases xs with - | ⟨y, ys⟩
      · exact absurd rfl hxs
      · simp [List.getLast?_cons_cons]
    | false =>
      rw [List.dropWhile_cons, if_neg (by simp [hp])]

lemma goTrim_head?_false (p : Char → Bool) (l : List Char) (c : Char)
    (h : (goTrim p l).head? = some c) : p c = false := by
  unfold goTrim at h
  rw [List.head?_reverse] at h
  by_cases hnil : (l.dropWhile p).reverse.dropWhile p = []
  · rw [hnil] at h
    simp at h
  · rw [getLast?_dropWhile_ne_nil p _ hnil, List.getLast?_reverse] at h
    exact head?_dropWhile_false p _ c h

lemma goTrim_getLast?_false (p : Char → Bool) (l : List Char) (c : Char)
    (h : (goTrim p l).getLast? = some c) : p c = false := by
  unfold goTrim at h
  rw [List.getLast?_reverse] at h
  exact head?_dropWhile_false p _ c h

lemma noSurroundingSpace_goTrim (l : List Char) :
    noSurroundingSpace (goTrim goIsSpace l) = true := by
  unfold noSurroundingSpace
  rw [Bool.and_eq_true]
  constructor
  · rcases h : (goTrim goIsSpace l).head? with - | c
    · rfl
    · simp [goTrim_head?_false goIsSpace l c h]
  · rcases h : (goTrim goIsSpace l).getLast? with - | c
    · rfl
    · simp [goTrim_getLast?_false goIsSpace l c h]

lemma filterMap_trim_eq (parts : List (List Char)) :
    (parts.filterMap fun p =>
      let q := goTrim goIsSpace (goTrim (fun c => c == '"') p)
      if q.isEmpty then none else some (String.mk q)) =
    ((parts.map fun p => goTrim goIsSpace (goTrim (fun c => c == '"') p)).filter
      fun q => !q.isEmpty).map String.mk := by
  induction parts with
  | nil => rfl
  | cons p ps ih =>
    cases h : (goTrim goIsSpace (goTrim (fun c => c == '"') p)).isEmpty with
    | true =>
      simp only [List.filterMap_cons, List.map_cons, List.filter_cons, h]
      simpa using ih
    | false =>
      simp only [List.filterMap_cons, List.map_cons, List.filter_cons, h]
      simpa using ih

lemma parseCSVAux_succ (recs : List (List String)) :
    ∀ i, parseCSVAux (i + 1) recs = recs.filterMap List.head? := by
  induction recs with
  | nil => intro i; rfl
  | cons rec rest ih =>
    intro i
    rcases rec with - | ⟨x, xs⟩
    · simpa [parseCSVAux] using ih (i + 1)
    · simp [parseCSVAux, ih (i + 1)]

lemma parseExRowsAux_succ (recs : List (List String)) :
    ∀ i, parseExRowsAux (i + 1) recs =
      recs.filterMap fun rec =>
        if 6 ≤ rec.length then some (rowOfRec rec) else none := by
  induction recs with
  | nil => intro i; rfl
  | cons rec rest ih =>
    intro i
    by_cases h : rec.length < 6
    · simp [parseExRowsAux, h, Nat.not_le.mpr h, ih (i + 1)]
    · simp [parseExRowsAux, h, Nat.le_of_not_lt h, ih (i + 1)]

-- Claim theorems for the parsers

/-- Claim C3, counterexample: the header check is an exact match against
"name"/"Name", not case-insensitive. The first row ["NAME"], whose first
cell case-insensitively equals "name", is kept as data rather than
skipped, so the claim as stated is false. -/
theorem parseCSV_case_insensitive_cex :
    ParseCSV [["NAME"]] = ["NAME"] ∧
    "NAME".data.map Char.toLower = "name".data.map Char.toLower := by
  constructor
  · rfl
  · decide

/-- Claim C3 (amended): ParseCSV skips the first row iff its first cell is
exactly "name" or "Name" (case-sensitive); an empty first row contributes
nothing, any other first row contributes its first cell, and every
non-empty subsequent row contributes its first column (never
header-checked). -/
theorem parseCSV_amended :
    ParseCSV [] = [] ∧
    ∀ hd tl, ParseCSV (hd :: tl) =
      firstRowContrib hd ++ tl.filterMap List.head? := by
  refine ⟨rfl, fun hd tl => ?_⟩
  rcases hd with - | ⟨x, xs⟩
  · simp [ParseCSV, parseCSVAux, firstRowContrib, parseCSVAux_succ tl 0]
  · by_cases h : x = "name" ∨ x = "Name"
    · simp [ParseCSV, parseCSVAux, firstRowContrib, h, parseCSVAux_succ tl 0]
    · simp [ParseCSV, parseCSVAux, firstRowContrib, h, parseCSVAux_succ tl 0]

/-- Claim C2, counterexample: a file holding only the header record (zero
data rows) is NOT an error: the guard is `len(records) < 1`, which a
header-only file passes, and the function returns an empty row list with
a nil error. -/
theorem parseExercises_headerOnly_cex :
    ParseExercisesCSV
      [["Name", "Description", "Category", "Equipment", "Types", "Muscles"]] =
      Except.ok [] := by
  rfl

/-- Claim C2 (amended): ParseExercisesCSV returns an error exactly when
the record list is empty (not even a header); any input with at least one
record succeeds, and in particular a header-only input yields the empty
row list without error. -/
theorem parseExercises_empty_amended :
    ParseExercisesCSV [] = Except.error "no records found" ∧
    (∀ hd, ParseExercisesCSV [hd] = Except.ok []) ∧
    ∀ hd tl, ∃ rows, ParseExercisesCSV (hd :: tl) = Except.ok rows := by
  refine ⟨rfl, fun hd => rfl, fun hd tl => ?_⟩
  exact ⟨parseExRowsAux 0 (hd :: tl), by simp [ParseExercisesCSV]⟩

/-- Claim C7: ParseExercisesCSV always skips the first record without
inspecting its content (the result does not depend on `hd`), silently
drops every data record with fewer than six columns, and maps every data
record with six or more columns to exactly one upload row, in order. -/
theorem parseExercises_rows_spec (hd : List String) (tl : List (List String)) :
    ParseExercisesCSV (hd :: tl) =
      Except.ok (tl.filterMap fun rec =>
        if 6 ≤ rec.length then some (rowOfRec rec) else none) := by
  simp [ParseExercisesCSV, parseExRowsAux, parseExRowsAux_succ tl 0]

/-- Claim C4, counterexample: quotes are trimmed before whitespace, so an
item whose quotes sit inside surrounding whitespace keeps its quotes: the
single item " \x22A\x22 " yields "\x22A\x22", not "A" with both layers
removed as the claim states. -/
theorem splitAndTrim_quote_order_cex :
    SplitAndTrim " \"A\" " ';' = ["\"A\""] ∧
    SplitAndTrim " \"A\" " ';' ≠ ["A"] := by
  constructor
  · rfl
  · decide

/-- Claim C4 (amended): SplitAndTrim splits on the separator and, for each
item, removes surrounding quote characters first and then surrounding
whitespace (a quote inside surrounding whitespace is kept), excluding
items empty after trimming; every returned item is non-empty with no
surrounding whitespace, and the list column "A; B ;;C" parses to
["A", "B", "C"]. -/
theorem splitAndTrim_amended (s : String) (sep : Char) :
    SplitAndTrim s sep =
      (((splitChar sep s.data).map fun p =>
          goTrim goIsSpace (goTrim (fun c => c == '"') p)).filter
        (fun q => !q.isEmpty)).map String.mk ∧
    ((SplitAndTrim s sep).all fun t =>
      !t.data.isEmpty && noSurroundingSpace t.data) = true ∧
    SplitAndTrim "A; B ;;C" ';' = ["A", "B", "C"] := by
  refine ⟨filterMap_trim_eq (splitChar sep s.data), ?_, by rfl⟩
  rw [List.all_eq_true]
  intro t ht
  unfold SplitAndTrim at ht
  rw [List.mem_filterMap] at ht
  obtain ⟨p, -, hp⟩ := ht
  simp only at hp
  cases h : (goTrim goIsSpace (goTrim (fun c => c == '"') p)).isEmpty with
  | true => rw [if_pos h] at hp; exact absurd hp (by simp)
  | false =>
    rw [if_neg (by simp [h])] at hp
    have ht' : t = String.mk (goTrim goIsSpace (goTrim (fun c => c == '"') p)) := by
      injection hp with hp
      exact hp.symm
    subst ht'
    have hdata : (String.mk (goTrim goIsSpace (goTrim (fun c => c == '"') p))).data =
        goTrim goIsSpace (goTrim (fun c => c == '"') p) := rfl
    rw [hdata, h, noSurroundingSpace_goTrim]
    rfl

-- Database layer: name tables, the simple insert path, and counts

/-- Effect of one `INSERT INTO <table> (name) VALUES ($1) ON CONFLICT
(name) DO NOTHING` statement on a name-keyed table (modelled as the list
of its rows in insertion order): append the name unless present. -/
def insertIgnore (table : List String) (n : String) : List String :=
  if n ∈ table then table else table ++ [n]

/-- Embeds `InsertNamesToDB` (part_000): one `db.Exec(query, name)` per
name, in order, returning on the first error. The failure oracle `f`
stands for the driver: `f n = some e` means the statement for `n` fails
with error `e` (and, per autocommit semantics, has no effect). Returns
the Go result, the final committed table state, and the trace of names
for which a statement was executed. -/
def InsertNamesToDB (f : String → Option String) (table : List String) :
    List String → Except String Unit × List String × List String
  | [] => (.ok (), table, [])
  | n :: ns =>
    match f n with
    | some e => (.error e, table, [n])
    | none =>
      let r := InsertNamesToDB f (insertIgnore table n) ns
      (r.1, r.2.1, n :: r.2.2)

/-- Embeds `GetTableCount` (part_000): `var count int` starts at zero and
the scan error is discarded (`_ =`), so a failed query/scan leaves zero
and a successful one stores the count. -/
def GetTableCount (scanRes : Except String Int) : Int :=
  match scanRes with
  | .ok n => n
  | .error _ => 0

lemma insertNames_ok (f : String → Option String) :
    ∀ (names : List String) (table : List String),
      (∀ n ∈ names, f n = none) →
      InsertNamesToDB f table names =
        (.ok (), names.foldl insertIgnore table, names) := by
  intro names
  induction names with
  | nil => intro table _; rfl
  | cons n ns ih =>
    intro table h
    have hn : f n = none := h n (by simp)
    simp only [InsertNamesToDB, hn, List.foldl_cons]
    rw [ih (insertIgnore table n) (fun x hx => h x (by simp [hx]))]

lemma mem_insertIgnore_self (table : List String) (n : String) :
    n ∈ insertIgnore table n := by
  unfold insertIgnore
  by_cases h : n ∈ table
  · rwa [if_pos h]
  · rw [if_neg h]; simp

lemma mem_insertIgnore_mono (table : List String) (n m : String)
    (h : m ∈ table) : m ∈ insertIgnore table n := by
  unfold insertIgnore
  by_cases hn : n ∈ table
  · rwa [if_pos hn]
  · rw [if_neg hn]; simp [h]

lemma mem_foldl_insertIgnore (names : List String) :
    ∀ table, (∀ m ∈ table, m ∈ names.foldl insertIgnore table) ∧
      ∀ n ∈ names, n ∈ names.foldl insertIgnore table := by
  induction names with
  | nil => intro table; simp
  | cons n ns ih =>
    intro table
    constructor
    · intro m hm
      simp only [List.foldl_cons]
      exact (ih (insertIgnore table n)).1 m (mem_insertIgnore_mono table n m hm)
    · intro x hx
      simp only [List.foldl_cons]
      rcases List.mem_cons.mp hx with rfl | hx'
      · exact (ih (insertIgnore table x)).1 x (mem_insertIgnore_self table x)
      · exact (ih (insertIgnore table n)).2 x hx'

lemma foldl_insertIgnore_subset (names : List String) :
    ∀ table, (∀ n ∈ names, n ∈ table) →
      names.foldl insertIgnore table = table := by
  induction names with
  | nil => intro table _; rfl
  | cons n ns ih =>
    intro table h
    have hn : n ∈ table := h n (by simp)
    simp only [List.foldl_cons, insertIgnore, if_pos hn]
    exact ih table fun x hx => h x (by simp [hx])

/-- Claim C5: InsertNamesToDB executes exactly one statement per name in
input order until the first failure: with `pre` the names before the
first failing one, the trace is `pre ++ [bad]` (or all of `names` when
none fails), the returned error is the first statement's error, and the
inserts for `pre` remain committed in the final table state (no
transaction wraps this path). -/
theorem insertNamesToDB_spec (f : String → Option String)
    (table names : List String) :
    InsertNamesToDB f table names =
      (match names.dropWhile (fun n => (f n).isNone) with
       | [] => (Except.ok (), names.foldl insertIgnore table, names)
       | bad :: _ =>
         (Except.error ((f bad).getD ""),
          (names.takeWhile fun n => (f n).isNone).foldl insertIgnore table,
          (names.takeWhile fun n => (f n).isNone) ++ [bad])) := by
  induction names generalizing table with
  | nil => rfl
  | cons n ns ih =>
    cases hn : f n with
    | some e =>
      simp [InsertNamesToDB, hn, List.dropWhile_cons, List.takeWhile_cons]
    | none =>
      simp only [InsertNamesToDB, hn, List.dropWhile_cons, List.takeWhile_cons,
        Option.isNone_none, ih (insertIgnore table n)]
      cases ns.dropWhile (fun n => (f n).isNone) with
      | nil => simp
      | cons bad rest => simp

/-- Claim C6: uploading the same name list twice is idempotent on the
table state: when no statement fails, the second run returns success,
changes nothing (conflict-ignore semantics), and leaves the row count
unchanged. -/
theorem insertNamesToDB_idempotent (f : String → Option String)
    (table names : List String) (h : ∀ n ∈ names, f n = none) :
    (InsertNamesToDB f table names).1 = Except.ok () ∧
    (InsertNamesToDB f (InsertNamesToDB f table names).2.1 names).1 =
      Except.ok () ∧
    (InsertNamesToDB f (InsertNamesToDB f table names).2.1 names).2.1 =
      (InsertNamesToDB f table names).2.1 ∧
    (InsertNamesToDB f (InsertNamesToDB f table names).2.1 names).2.1.length =
      (InsertNamesToDB f table names).2.1.length := by
  rw [insertNames_ok f names table h]
  rw [insertNames_ok f names (names.foldl insertIgnore table) h]
  refine ⟨rfl, rfl, ?_, ?_⟩
  · exact foldl_insertIgnore_subset names _
      fun n hn => (mem_foldl_insertIgnore names table).2 n hn
  · rw [foldl_insertIgnore_subset names _
      fun n hn => (mem_foldl_insertIgnore names table).2 n hn]

/-- Witness for C6 at the spec's own example: uploading
["Barbell", "Dumbbell", "Barbell"] twice into an empty table. -/
theorem insertNamesToDB_idempotent_witness :
    (∀ n ∈ ["Barbell", "Dumbbell", "Barbell"],
      (fun (_ : String) => (none : Option String)) n = none) ∧
    ((InsertNamesToDB (fun _ => none)
        (InsertNamesToDB (fun _ => none) [] ["Barbell", "Dumbbell", "Barbell"]).2.1
        ["Barbell", "Dumbbell", "Barbell"]).2.1 =
      (InsertNamesToDB (fun _ => none) [] ["Barbell", "Dumbbell", "Barbell"]).2.1) :=
  ⟨by decide,
   (insertNamesToDB_idempotent (fun _ => none) []
      ["Barbell", "Dumbbell", "Barbell"] (by decide)).2.2.1⟩

/-- Claim C9: GetTableCount never propagates an error: a failed count
query or scan is swallowed and yields zero, and a successful scan yields
the scanned count. -/
theorem getTableCount_spec :
    (∀ e : String, GetTableCount (.error e) = 0) ∧
    ∀ n : Int, GetTableCount (.ok n) = n :=
  ⟨fun _ => rfl, fun _ => rfl⟩

-- The exercise batch transaction (part_002, `InsertExercises`)

/-- Persistent store state touched by `InsertExercises`: the four
name-keyed dimension tables, the exercise table (name, description,
category id; the row's id is its position + 1), and the three junction
tables. -/
structure DBState where
  categories : List String
  equipment : List String
  trainingTypes : List String
  muscleGroups : List String
  exercises : List (String × String × Nat)
  exerciseEquipment : List (Nat × Nat)
  exerciseTrainingTypes : List (Nat × Nat)
  exerciseMuscles : List (Nat × Nat)
deriving DecidableEq

/-- Failure oracle standing for the database driver inside the exercise
transaction: each field gives the error (if any) of the corresponding
statement — the four get-or-insert statements and the exercise upsert
keyed by the name they resolve, the junction inserts keyed by the id
pair. `none` means the statement succeeds. -/
structure FailureOracle where
  cat : String → Option String
  ex : String → Option String
  equip : String → Option String
  ttype : String → Option String
  muscle : String → Option String
  equipJ : Nat → Nat → Option String
  typeJ : Nat → Nat → Option String
  muscleJ : Nat → Nat → Option String

/-- Get-or-insert on a name table: the id of an existing row, else append
and return the new id (embeds the `INSERT ... ON CONFLICT (name) DO
UPDATE SET name=EXCLUDED.name RETURNING id` statements). -/
def getOrInsertId (table : List String) (n : String) : Nat × List String :=
  match table.findIdx? (fun x => x == n) with
  | some i => (i + 1, table)
  | none => (table.length + 1, table ++ [n])

/-- Embeds `GetOrInsertCategory` (part_002). -/
def GetOrInsertCategory (o : FailureOracle) (db : DBState) (n : String) :
    Except String (Nat × DBState) :=
  match o.cat n with
  | some e => .error e
  | none =>
    let r := getOrInsertId db.categories n
    .ok (r.1, { db with categories := r.2 })

/-- Embeds `GetOrInsertEquipment` (part_002). -/
def GetOrInsertEquipment (o : FailureOracle) (db : DBState) (n : String) :
    Except String (Nat × DBState) :=
  match o.equip n with
  | some e => .error e
  | none =>
    let r := getOrInsertId db.equipment n
    .ok (r.1, { db with equipment := r.2 })

/-- Embeds `GetOrInsertType` (part_002). -/
def GetOrInsertType (o : FailureOracle) (db : DBState) (n : String) :
    Except String (Nat × DBState) :=
  match o.ttype n with
  | some e => .error e
  | none =>
    let r := getOrInsertId db.trainingTypes n
    .ok (r.1, { db with trainingTypes := r.2 })

/-- Embeds `GetOrInsertMuscle` (part_002). -/
def GetOrInsertMuscle (o : FailureOracle) (db : DBState) (n : String) :
    Except String (Nat × DBState) :=
  match o.muscle n with
  | some e => .error e
  | none =>
    let r := getOrInsertId db.muscleGroups n
    .ok (r.1, { db with muscleGroups := r.2 })

/-- Embeds the exercise upsert (`INSERT INTO exercise ... ON CONFLICT
(name) DO UPDATE SET description=EXCLUDED.description RETURNING id`): on
a name conflict the description is overwritten, the category id kept,
and the existing id returned; otherwise a new row is appended. -/
def upsertExercise (o : FailureOracle) (db : DBState)
    (name desc : String) (catID : Nat) : Except String (Nat × DBState) :=
  match o.ex name with
  | some e => .error e
  | none =>
    match db.exercises.findIdx? (fun r => r.1 == name) with
    | some i =>
      let old := db.exercises.getD i (name, desc, catID)
      let updated := db.exercises.set i (name, desc, old.2.2)
      .ok (i + 1, { db with exercises := updated })
    | none =>
      let appended := db.exercises ++ [(name, desc, catID)]
      .ok (db.exercises.length + 1, { db with exercises := appended })

/-- Junction insert with `ON CONFLICT DO NOTHING`. -/
def insertPair (l : List (Nat × Nat)) (a b : Nat) : List (Nat × Nat) :=
  if (a, b) ∈ l then l else l ++ [(a, b)]

/-- The equipment loop of `InsertExercises`: re-trim each item, skip
blanks and case-insensitive "None", then get-or-insert the equipment row
and the junction row. Returns the first error (with the transaction
state as mutated so far) or the final state. -/
def insertEquipmentLinks (o : FailureOracle) (db : DBState) (exID : Nat) :
    List String → Option String × DBState
  | [] => (none, db)
  | e :: es =>
    let t := TrimSpace e
    if t = "" ∨ t.data.map Char.toLower = "none".data then
      insertEquipmentLinks o db exID es
    else
      match GetOrInsertEquipment o db t with
      | .error err => (some ("equipment " ++ t ++ ": " ++ err), db)
      | .ok (eqID, db1) =>
        match o.equipJ exID eqID with
        | some err => (some ("insert equipment junction: " ++ err), db1)
        | none =>
          insertEquipmentLinks o
            { db1 with exerciseEquipment :=
                insertPair db1.exerciseEquipment exID eqID } exID es

/-- The types loop of `InsertExercises` (no trimming or "None" skip in
the source). -/
def insertTypeLinks (o : FailureOracle) (db : DBState) (exID : Nat) :
    List String → Option String × DBState
  | [] => (none, db)
  | t :: ts =>
    match GetOrInsertType o db t with
    | .error err => (some ("type " ++ t ++ ": " ++ err), db)
    | .ok (tyID, db1) =>
      match o.typeJ exID tyID with
      | some err => (some ("insert type junction: " ++ err), db1)
      | none =>
        insertTypeLinks o
          { db1 with exerciseTrainingTypes :=
              insertPair db1.exerciseTrainingTypes exID tyID } exID ts

/-- The muscles loop of `InsertExercises`. -/
def insertMuscleLinks (o : FailureOracle) (db : DBState) (exID : Nat) :
    List String → Option String × DBState
  | [] => (none, db)
  | m :: ms =>
    match GetOrInsertMuscle o db m with
    | .error err => (some ("muscle " ++ m ++ ": " ++ err), db)
    | .ok (muID, db1) =>
      match o.muscleJ exID muID with
      | some err => (some ("insert muscle junction: " ++ err), db1)
      | none =>
        insertMuscleLinks o
          { db1 with exerciseMuscles :=
              insertPair db1.exerciseMuscles exID muID } exID ms

/-- One iteration of the row loop of `InsertExercises`, threading the
transaction state and stopping at the first error exactly as the Go
loop body returns. -/
def insertExerciseRow (o : FailureOracle) (db : DBState)
    (row : ExerciseUploadRow) : Option String × DBState :=
  match GetOrInsertCategory o db row.category with
  | .error e => (some ("category " ++ row.category ++ ": " ++ e), db)
  | .ok (catID, db1) =>
    match upsertExercise o db1 row.name row.description catID with
    | .error e => (some ("insert exercise " ++ row.name ++ ": " ++ e), db1)
    | .ok (exID, db2) =>
      match insertEquipmentLinks o db2 exID row.equipment with
      | (some e, db3) => (some e, db3)
      | (none, db3) =>
        match insertTypeLinks o db3 exID row.types with
        | (some e, db4) => (some e, db4)
        | (none, db4) => insertMuscleLinks o db4 exID row.muscles

/-- The row loop of `InsertExercises`. -/
def insertExerciseRows (o : FailureOracle) (db : DBState) :
    List ExerciseUploadRow → Option String × DBState
  | [] => (none, db)
  | r :: rs =>
    match insertExerciseRow o db r with
    | (some e, db1) => (some e, db1)
    | (none, db1) => insertExerciseRows o db1 rs

/-- Embeds `InsertExercises` (part_002) including its defer bug: the
deferred closure tests the function-scope `err`, but every `:=` inside
the row loop declares a fresh shadowing `err`, so the function-scope
`err` stays nil after a successful `db.Begin()` and the defer calls
`tx.Commit()` on BOTH the success and the error return paths. The final
state is therefore the transaction's working state in both branches. -/
def InsertExercises (o : FailureOracle) (db : DBState)
    (rows : List ExerciseUploadRow) : Except String Unit × DBState :=
  match insertExerciseRows o db rows with
  | (some e, tx) => (.error e, tx)
  | (none, tx) => (.ok (), tx)

/-- An oracle where only resolving the category "Bad" fails. -/
def oracleBadCat : FailureOracle :=
  { cat := fun n => if n == "Bad" then some "boom" else none
    ex := fun _ => none
    equip := fun _ => none
    ttype := fun _ => none
    muscle := fun _ => none
    equipJ := fun _ _ => none
    typeJ := fun _ _ => none
    muscleJ := fun _ _ => none }

/-- The empty store. -/
def emptyDB : DBState :=
  { categories := []
    equipment := []
    trainingTypes := []
    muscleGroups := []
    exercises := []
    exerciseEquipment := []
    exerciseTrainingTypes := []
    exerciseMuscles := [] }

/-- A well-formed first row. -/
def rowPushUp : ExerciseUploadRow :=
  { name := "Push-up"
    description := "A bodyweight exercise"
    category := "Chest"
    equipment := []
    types := ["Strength"]
    muscles := ["Chest"] }

/-- A second row whose category resolution fails. -/
def rowSitUp : ExerciseUploadRow :=
  { name := "Sit-up"
    description := "Core"
    category := "Bad"
    equipment := []
    types := []
    muscles := [] }

/-- Claim C1 is right about the intent but the code violates it: when the
second row's category resolution fails, InsertExercises returns the error
yet the deferred commit (reading the shadowed, still-nil `err`) commits
the first row's effects — the final state differs from the initial one
and contains the first row's exercise, category, type and muscle rows. -/
theorem insertExercises_commits_partial_batch :
    (InsertExercises oracleBadCat emptyDB [rowPushUp, rowSitUp]).1 =
      Except.error "category Bad: boom" ∧
    (InsertExercises oracleBadCat emptyDB [rowPushUp, rowSitUp]).2 ≠ emptyDB ∧
    (InsertExercises oracleBadCat emptyDB [rowPushUp, rowSitUp]).2.exercises =
      [("Push-up", "A bodyweight exercise", 1)] ∧
    (InsertExercises oracleBadCat emptyDB [rowPushUp, rowSitUp]).2.categories =
      ["Chest"] := by
  refine ⟨rfl, ?_, rfl, rfl⟩
  decide

-- Menu state machine (src/menu.go)

/-- The three UI states (`appState`). -/
inductive AppState where
  | menu
  | fileSelector
  | result
deriving DecidableEq

/-- The bubbletea model (`model`). Highlight indices are Go `int`s,
modelled as `Int`. The `db` handle is not part of the value state; its
observable results enter through `Env`. -/
structure Model where
  state : AppState
  menuChoice : Int
  fileList : List String
  fileChoice : Int
  selectedFile : String
  resultMsg : String
  isError : Bool
  counts : List Int
deriving DecidableEq

/-- The fixed main-menu options (`menuOptions`). -/
def menuOptions : List String :=
  ["Upload Muscle Groups", "Upload Exercise Types", "Upload Exercise Categories",
   "Upload Equipment", "Upload Exercises", "Quit"]

/-- Results of the external calls a single `Update` step can make:
directory listing, the three name parsers, the exercise parser, the two
insert operations (`none` = success), and the counts fetched by
`refreshCounts`. -/
structure Env where
  listFilesRes : Except String (List String)
  parseCSVRes : Except String (List String)
  parseJSONRes : Except String (List String)
  parseYAMLRes : Except String (List String)
  parseExercisesRes : Except String (List ExerciseUploadRow)
  insertNamesRes : Option String
  insertExercisesRes : Option String
  counts : List Int

/-- A bubbletea message: a key press, or any other message (which the
source's `Update` leaves the model unchanged by). -/
inductive Msg where
  | key (s : String)
  | other

/-- Embeds `filepath.Ext`: the suffix starting at the last dot of the
last slash-separated element, or empty. -/
def goExt (s : String) : String :=
  let rev := s.data.reverse
  let pre := rev.takeWhile fun c => !(c == '.') && !(c == '/')
  match rev.drop pre.length with
  | '.' :: _ => ⟨'.' :: pre.reverse⟩
  | _ => ""

/-- ASCII lower-casing of a string (`strings.ToLower` on the extension
strings the source compares against). -/
def toLowerStr (s : String) : String :=
  ⟨s.data.map Char.toLower⟩

/-- The transition to the result state with an error message. -/
def resultErr (m : Model) (msg : String) : Model :=
  { m with state := .result, resultMsg := msg, isError := true }

/-- The "enter" branch of `updateMenu`: quit keeps the model (the quit
command is outside the value state); otherwise list the data directory
and either enter the file selector (sorted files plus the synthetic
"Back" entry, highlight reset to 0) or report the read error. -/
def menuEnter (env : Env) (m : Model) : Model :=
  if m.menuChoice = (menuOptions.length : Int) - 1 then m
  else
    match env.listFilesRes with
    | .error e =>
      resultErr m ("Error reading ./src/internal/data/: " ++ e ++
        "\nPress enter or q to return to menu.")
    | .ok files =>
      { m with
        state := .fileSelector
        fileList := files ++ ["Back"]
        fileChoice := 0 }

/-- Embeds `updateMenu` (src/menu.go): clamped up/down navigation,
enter on "Quit" keeps the model (the program quits via the command,
which is outside the value state), enter otherwise lists the data
directory and either enters the file selector (files plus the synthetic
"Back" entry, highlight reset to 0) or reports the error, `r` refreshes
the counts. -/
def updateMenu (env : Env) (m : Model) (k : String) : Model :=
  if k = "up" ∨ k = "k" then
    if m.menuChoice > 0 then { m with menuChoice := m.menuChoice - 1 } else m
  else if k = "down" ∨ k = "j" then
    if m.menuChoice < (menuOptions.length : Int) - 1 then
      { m with menuChoice := m.menuChoice + 1 }
    else m
  else if k = "enter" then menuEnter env m
  else if k = "q" ∨ k = "ctrl+c" then m
  else if k = "r" then { m with counts := env.counts }
  else m

/-- The "enter" branch of `updateFileMenu`: selecting "Back" returns to
the menu with no side effects; selecting a file joins the path, picks a
parser by lower-cased extension, then routes menu choice 4 through the
exercise parser and batch insert and every other choice through the name
insert, always landing in the result state. -/
def fileEnter (env : Env) (m : Model) : Model :=
  let sel := m.fileList.getD m.fileChoice.toNat ""
  if sel = "Back" then { m with state := .menu }
  else
    let m1 := { m with selectedFile := "src/internal/data/" ++ sel }
    let ext := toLowerStr (goExt m1.selectedFile)
    let namesRes : Except String (List String) :=
      if ext = ".csv" then env.parseCSVRes
      else if ext = ".json" then env.parseJSONRes
      else if ext = ".yaml" ∨ ext = ".yml" then env.parseYAMLRes
      else .error ("unsupported file type: " ++ ext)
    match namesRes with
    | .error e =>
      resultErr m1 ("Error parsing file: " ++ e ++
        "\nPress enter or q to return to menu.")
    | .ok names =>
      if m1.menuChoice = 4 then
        match env.parseExercisesRes with
        | .error e =>
          resultErr m1 ("Error parsing exercises CSV: " ++ e ++
            "\nPress enter or q to return to menu.")
        | .ok rows =>
          match env.insertExercisesRes with
          | some e =>
            resultErr m1 ("Database error: " ++ e ++
              "\nPress enter or q to return to menu.")
          | none =>
            { m1 with
              state := .result
              resultMsg := "Successfully uploaded " ++ toString rows.length ++
                " exercises!\nPress enter or q to return to menu."
              isError := false }
      else
        match env.insertNamesRes with
        | some e =>
          resultErr m1 ("Database error: " ++ e ++
            "\nPress enter or q to return to menu.")
        | none =>
          { m1 with
            state := .result
            resultMsg := "Successfully uploaded " ++ toString names.length ++
              " entries!\nPress enter or q to return to menu."
            isError := false }

/-- Embeds `updateFileMenu` (src/menu.go): clamped navigation, q/esc
back to the menu, enter on "Back" likewise; enter on a file joins the
path, dispatches by lower-cased extension to a parser, then routes
choice 4 through the exercise parser and batch insert and every other
choice through the name insert, landing in the result state. -/
def updateFileMenu (env : Env) (m : Model) (k : String) : Model :=
  if k = "up" ∨ k = "k" then
    if m.fileChoice > 0 then { m with fileChoice := m.fileChoice - 1 } else m
  else if k = "down" ∨ k = "j" then
    if m.fileChoice < (m.fileList.length : Int) - 1 then
      { m with fileChoice := m.fileChoice + 1 }
    else m
  else if k = "q" ∨ k = "esc" then { m with state := .menu }
  else if k = "enter" then fileEnter env m
  else m

/-- Embeds `model.Update` (src/menu.go): dispatch on the current state;
in the result state enter/q/esc clear the message and return to the
menu, refreshing the counts; non-key messages change nothing. -/
def update (env : Env) (m : Model) (msg : Msg) : Model :=
  match m.state with
  | .menu =>
    match msg with
    | .key k => updateMenu env m k
    | .other => m
  | .fileSelector =>
    match msg with
    | .key k => updateFileMenu env m k
    | .other => m
  | .result =>
    match msg with
    | .key k =>
      if k = "enter" ∨ k = "q" ∨ k = "esc" then
        { m with
          state := .menu
          resultMsg := ""
          isError := false
          counts := env.counts }
      else m
    | .other => m

/-- Embeds `initialModel` (src/menu.go): menu state, highlight 0, Go
zero values everywhere else, counts fetched by the constructor's
`refreshCounts`. -/
def initialModel (counts : List Int) : Model :=
  { state := .menu
    menuChoice := 0
    fileList := []
    fileChoice := 0
    selectedFile := ""
    resultMsg := ""
    isError := false
    counts := counts }

/-- The models the interactive loop can ever be in: the initial model,
closed under one `Update` step with any message under any environment. -/
inductive Reachable : Model → Prop where
  | init (counts : List Int) : Reachable (initialModel counts)
  | step (env : Env) (msg : Msg) {m : Model} :
      Reachable m → Reachable (update env m msg)

/-- The file-selector safety invariant. -/
def FileSelInv (m : Model) : Prop :=
  m.state = AppState.fileSelector →
    m.fileList ≠ [] ∧ 0 ≤ m.fileChoice ∧
    m.fileChoice < (m.fileList.length : Int)

lemma fileEnter_state_ne (env : Env) (m : Model) :
    (fileEnter env m).state = AppState.menu ∨
    (fileEnter env m).state = AppState.result := by
  simp only [fileEnter]
  split_ifs with hsel <;>
    first
    | exact Or.inl rfl
    | (right; repeat' first | rfl | split)

lemma menuEnter_inv (env : Env) (m : Model) (ih : FileSelInv m) :
    FileSelInv (menuEnter env m) := by
  unfold menuEnter
  split_ifs with h
  · exact ih
  · rcases henv : env.listFilesRes with e | files
    · simp only [henv]
      intro hfs
      exact AppState.noConfusion hfs
    · simp only [henv]
      intro _
      refine ⟨by simp, le_refl 0, ?_⟩
      show (0 : Int) < ((files ++ ["Back"]).length : Int)
      simp

lemma fileSelInv_step (env : Env) (msg : Msg) (m : Model) (ih : FileSelInv m) :
    FileSelInv (update env m msg) := by
  obtain ⟨st, mc, fl, fc, sf, rm, ie, cts⟩ := m
  cases msg with
  | other => cases st <;> exact ih
  | key k =>
    cases st with
    | menu =>
      show FileSelInv (updateMenu env ⟨.menu, mc, fl, fc, sf, rm, ie, cts⟩ k)
      unfold updateMenu
      split_ifs <;>
        first
        | exact menuEnter_inv env _ ih
        | (intro hfs; exact AppState.noConfusion hfs)
    | fileSelector =>
      obtain ⟨hne0, h00, hlt0⟩ := ih rfl
      have hne : fl ≠ [] := hne0
      have h0 : (0 : Int) ≤ fc := h00
      have hlt : fc < (fl.length : Int) := hlt0
      show FileSelInv (updateFileMenu env ⟨.fileSelector, mc, fl, fc, sf, rm, ie, cts⟩ k)
      unfold updateFileMenu
      split_ifs with h1 h2 h3 h4 h5 h6
      · intro _
        have h2a : fc > 0 := h2
        exact ⟨hne, (by omega : (0 : Int) ≤ fc - 1),
               (by omega : fc - 1 < (fl.length : Int))⟩
      · intro _
        exact ⟨hne, h0, hlt⟩
      · intro _
        have h4a : fc < (fl.length : Int) - 1 := h4
        exact ⟨hne, (by omega : (0 : Int) ≤ fc + 1),
               (by omega : fc + 1 < (fl.length : Int))⟩
      · intro _
        exact ⟨hne, h0, hlt⟩
      · intro hfs
        exact AppState.noConfusion hfs
      · intro hfs
        rcases fileEnter_state_ne env ⟨.fileSelector, mc, fl, fc, sf, rm, ie, cts⟩ with h | h
        · rw [hfs] at h
          exact AppState.noConfusion h
        · rw [hfs] at h
          exact AppState.noConfusion h
      · intro _
        exact ⟨hne, h0, hlt⟩
    | result =>
      show FileSelInv (if k = "enter" ∨ k = "q" ∨ k = "esc" then _ else _)
      split_ifs with h
      · intro hfs
        exact AppState.noConfusion hfs
      · exact ih

lemma reachable_fileSelInv (m : Model) (h : Reachable m) : FileSelInv m := by
  induction h with
  | init counts => intro hfs; exact AppState.noConfusion hfs
  | step env msg hr ih => exact fileSelInv_step env msg _ ih

/-- Claim C10: in every reachable model that is in the FileSelector
state, the file list is non-empty (entry always appends the synthetic
"Back" entry) and the highlight index lies within [0, len-1] — entry
resets it to 0 and navigation clamps — so the indexing
fileList[fileChoice] performed on enter is in range. -/
theorem reachable_fileSelector_inv (m : Model) (h : Reachable m)
    (hst : m.state = AppState.fileSelector) :
    m.fileList ≠ [] ∧ 0 ≤ m.fileChoice ∧
    m.fileChoice < (m.fileList.length : Int) ∧
    m.fileChoice.toNat < m.fileList.length := by
  obtain ⟨a, b, c⟩ := reachable_fileSelInv m h hst
  exact ⟨a, b, c, by omega⟩

/-- A one-step environment where every external call succeeds trivially. -/
def env0 : Env :=
  { listFilesRes := .ok []
    parseCSVRes := .ok []
    parseJSONRes := .ok []
    parseYAMLRes := .ok []
    parseExercisesRes := .ok []
    insertNamesRes := none
    insertExercisesRes := none
    counts := [] }

/-- Witness for C10: after pressing enter in the initial menu (with an
empty data directory) the model is in the FileSelector state and the
invariant holds there concretely. -/
theorem reachable_fileSelector_inv_witness :
    (update env0 (initialModel []) (Msg.key "enter")).state =
      AppState.fileSelector ∧
    (update env0 (initialModel []) (Msg.key "enter")).fileList ≠ [] ∧
    (update env0 (initialModel []) (Msg.key "enter")).fileChoice.toNat <
      (update env0 (initialModel []) (Msg.key "enter")).fileList.length :=
  ⟨by decide,
   (reachable_fileSelector_inv _
      (Reachable.step env0 (Msg.key "enter") (Reachable.init []))
      (by decide)).1,
   (reachable_fileSelector_inv _
      (Reachable.step env0 (Msg.key "enter") (Reachable.init []))
      (by decide)).2.2.2⟩

lemma updateFileMenu_down_clamped (env : Env) (m : Model)
    (h : ¬ m.fileChoice < (m.fileList.length : Int) - 1) :
    updateFileMenu env m "down" = m ∧ updateFileMenu env m "j" = m := by
  constructor <;>
    (unfold updateFileMenu
     rw [if_neg (by decide), if_pos (by decide), if_neg h])

/-- Claim C8: in the Menu state and in the FileSelector state, for every
model, an up keypress ("up" or "k") at index 0 leaves the model
unchanged, and a down keypress ("down" or "j") at the last index leaves
it unchanged: navigation clamps and never wraps. -/
theorem nav_clamped (env : Env) (m : Model) :
    (m.state = AppState.menu → m.menuChoice = 0 →
      update env m (Msg.key "up") = m ∧ update env m (Msg.key "k") = m) ∧
    (m.state = AppState.menu →
      m.menuChoice = (menuOptions.length : Int) - 1 →
      update env m (Msg.key "down") = m ∧ update env m (Msg.key "j") = m) ∧
    (m.state = AppState.fileSelector → m.fileChoice = 0 →
      update env m (Msg.key "up") = m ∧ update env m (Msg.key "k") = m) ∧
    (m.state = AppState.fileSelector →
      m.fileChoice = (m.fileList.length : Int) - 1 →
      update env m (Msg.key "down") = m ∧ update env m (Msg.key "j") = m) := by
  obtain ⟨st, mc, fl, fc, sf, rm, ie, cts⟩ := m
  refine ⟨?_, ?_, ?_, ?_⟩ <;> intro hst hc <;> subst hst
  · simp only at hc
    subst hc
    exact ⟨rfl, rfl⟩
  · simp only at hc
    subst hc
    exact ⟨rfl, rfl⟩
  · simp only at hc
    subst hc
    exact ⟨rfl, rfl⟩
  · have h : ¬ (⟨AppState.fileSelector, mc, fl, fc, sf, rm, ie, cts⟩ : Model).fileChoice <
        (((⟨AppState.fileSelector, mc, fl, fc, sf, rm, ie, cts⟩ : Model).fileList.length : Int)) - 1 := by
      show ¬ fc < (fl.length : Int) - 1
      have hc2 : fc = (fl.length : Int) - 1 := hc
      omega
    exact ⟨(updateFileMenu_down_clamped env _ h).1,
           (updateFileMenu_down_clamped env _ h).2⟩

/-- The file-selector model highlighting the last (and only) entry. -/
def mFileLast : Model :=
  { state := .fileSelector
    menuChoice := 0
    fileList := ["Back"]
    fileChoice := 0
    selectedFile := ""
    resultMsg := ""
    isError := false
    counts := [] }

/-- Witness for C8: up at the top of the initial menu and down at the
bottom of a file list are both no-ops. -/
theorem nav_clamped_witness :
    update env0 (initialModel []) (Msg.key "up") = initialModel [] ∧
    update env0 mFileLast (Msg.key "down") = mFileLast :=
  ⟨((nav_clamped env0 (initialModel [])).1 rfl rfl).1,
   ((nav_clamped env0 mFileLast).2.2.2 rfl (by decide)).1⟩
